import Mathlib

/-!
Shallow embedding of `src/packages/editor/src/lib/TldrawEditor.tsx` (tldraw).

Objects that React compares by reference (the store, the container element, the
shape/binding/tool util arrays, the user, the options object, the license key,
camera-options objects, error objects, initial-state strings) are modelled as
`Nat` identity tokens: two renders pass "the same" object iff the tokens are
equal, which is exactly the shallow comparison React performs on dependency
arrays.  Editor instances are numbered by construction order.
-/

namespace TldrawSpec

/-- The tagged union `TLStoreWithStatus` (`store.status` is switched on in
`TldrawEditorWithLoadingStore`, lines 315-334); the three ready variants carry
the underlying store object (`store.store`), the error variant carries
`store.error`. -/
inductive StoreWithStatus where
  | error (err : Nat)
  | loading
  | notSynced (store : Nat)
  | syncedLocal (store : Nat)
  | syncedRemote (store : Nat)
deriving DecidableEq

/-- Result of rendering `TldrawEditorWithLoadingStore` (lines 296-337): it
either throws `store.error` to the enclosing error boundary, renders the
`LoadingScreen` component when one is registered (else renders nothing,
`null`), or falls through the `switch` and hands the underlying store to
`TldrawEditorWithReadyStore`. -/
inductive GateResult where
  | throwErr (err : Nat)
  | renderLoading (screen : Option Nat)
  | passThrough (store : Nat)
deriving DecidableEq

/-- The `switch (store.status)` of `TldrawEditorWithLoadingStore`
(lines 315-336): `error` throws `store.error`; `loading` renders
`LoadingScreen` if provided, else `null`; the three ready statuses `break` and
the component returns `TldrawEditorWithReadyStore` applied to `store.store`.
`loadingScreen` is the optional `LoadingScreen` slot from the components
registry. -/
def storeStatusGate (store : StoreWithStatus) (loadingScreen : Option Nat) : GateResult :=
  match store with
  | StoreWithStatus.error err => GateResult.throwErr err
  | StoreWithStatus.loading => GateResult.renderLoading loadingScreen
  | StoreWithStatus.notSynced st => GateResult.passThrough st
  | StoreWithStatus.syncedLocal st => GateResult.passThrough st
  | StoreWithStatus.syncedRemote st => GateResult.passThrough st

/-- The identity tuple of `TldrawEditorWithReadyStore`'s construction effect:
its dependency array is `[bindingUtils, container, options, shapeUtils, store,
tools, user, setEditor, licenseKey]` (line 409).  `setEditor` comes from
`useRefState` and is referentially stable for the life of the component, so the
varying part is exactly these eight inputs. -/
structure IdentityKey where
  store : Nat
  container : Nat
  shapeUtils : Nat
  bindingUtils : Nat
  tools : Nat
  user : Nat
  options : Nat
  licenseKey : Nat
deriving DecidableEq

/-- The contents of `editorOptionsRef` (lines 366-374): `autoFocus` (after the
destructuring default `autoFocus = true`, line 348), `inferDarkMode`,
`initialState` and `cameraOptions`. -/
structure EditorOptions where
  autoFocus : Bool
  inferDarkMode : Option Bool
  initialState : Option Nat
  cameraOptions : Option Nat
deriving DecidableEq

/-- The props of one render of `TldrawEditorWithReadyStore` (lines 339-359),
together with the `container` obtained from `useContainer()`.  Optional props
that the component leaves optional stay `Option`-valued. -/
structure Props where
  store : Nat
  container : Nat
  shapeUtils : Nat
  bindingUtils : Nat
  tools : Nat
  user : Nat
  options : Nat
  licenseKey : Nat
  autoFocus : Option Bool
  inferDarkMode : Option Bool
  initialState : Option Nat
  cameraOptions : Option Nat
deriving DecidableEq

/-- The identity tuple of a render's props (dependency array of the
construction effect, line 409). -/
def Props.identityKey (p : Props) : IdentityKey :=
  { store := p.store, container := p.container, shapeUtils := p.shapeUtils,
    bindingUtils := p.bindingUtils, tools := p.tools, user := p.user,
    options := p.options, licenseKey := p.licenseKey }

/-- The one-shot option values of a render, as destructured by the component:
`autoFocus = true` is the only default (line 348). -/
def Props.optsOf (p : Props) : EditorOptions :=
  { autoFocus := p.autoFocus.getD true, inferDarkMode := p.inferDarkMode,
    initialState := p.initialState, cameraOptions := p.cameraOptions }

/-- The argument record of `new Editor({...})` (lines 387-400): the identity
inputs plus the one-shot values read from `editorOptionsRef.current`
(line 386). -/
structure EditorConfig where
  store : Nat
  shapeUtils : Nat
  bindingUtils : Nat
  tools : Nat
  container : Nat
  user : Nat
  initialState : Option Nat
  autoFocus : Bool
  inferDarkMode : Option Bool
  cameraOptions : Option Nat
  options : Nat
  licenseKey : Nat
deriving DecidableEq

/-- The `Editor` configuration that a construction from props `p` receives when
the ref holder is up to date: identity fields from `p`, one-shot fields from
`p.optsOf`. -/
def mkEditorConfig (p : Props) : EditorConfig :=
  { store := p.store, shapeUtils := p.shapeUtils, bindingUtils := p.bindingUtils,
    tools := p.tools, container := p.container, user := p.user,
    initialState := p.initialState, autoFocus := p.autoFocus.getD true,
    inferDarkMode := p.inferDarkMode, cameraOptions := p.cameraOptions,
    options := p.options, licenseKey := p.licenseKey }

/-- Observable calls made on engine instances by the ready-store component:
`new Editor(...)` (line 387), `editor.dispose()` (line 405), and
`editor.setCameraOptions(...)` (line 415).  Instances are numbered by
construction order. -/
inductive REvent where
  | construct (id : Nat) (cfg : EditorConfig)
  | dispose (id : Nat)
  | setCameraOptions (id : Nat) (cam : Nat)
deriving DecidableEq

/-- Persistent hook state of one mounted `TldrawEditorWithReadyStore`:
`mounted` is false before the first commit; `prevA`, `prevB`, `prevC` are the
last-seen dependency arrays of the three layout effects (ref update, lines
375-382; construct, lines 384-410; camera update, lines 413-417); `refOpts` is
`editorOptionsRef.current`; `editor` is the `useRefState` value exposed to the
subtree; `effectBInst` is the instance captured by the construction effect's
pending cleanup; `nextId` numbers the next construction. -/
structure CState where
  mounted : Bool
  prevA : EditorOptions
  prevB : IdentityKey
  prevC : Option Nat × Option Nat
  refOpts : EditorOptions
  editor : Option Nat
  effectBInst : Option Nat
  nextId : Nat
deriving DecidableEq

/-- Hook state created by the component's first render with props `p`:
`useRef` initialises the holder with the first render's values (lines
366-374), `useRefState(null)` gives no editor, and no effect has run yet. -/
def initialState (p : Props) : CState :=
  { mounted := false, prevA := p.optsOf, prevB := p.identityKey,
    prevC := (none, none), refOpts := p.optsOf, editor := none,
    effectBInst := none, nextId := 0 }

/-- Result of committing one render: either all layout effects ran (`ok`), or
`new Editor(...)` threw, in which case the events up to the throw have
happened and the exception propagates to the enclosing error boundary
(`threw` carries the configuration whose construction failed). -/
inductive CommitResult where
  | ok (s : CState) (events : List REvent)
  | threw (s : CState) (events : List REvent) (cfg : EditorConfig)
deriving DecidableEq

/-- One React commit of `TldrawEditorWithReadyStore` with props `p` from hook
state `s`.  React's commit first runs the cleanups of layout effects whose
dependencies changed (mutation phase) and then their bodies in declaration
order (layout phase).  Only the construction effect registers a cleanup
(`editor.dispose()`, lines 404-406), so a commit runs: dispose (if the
identity deps changed) — ref update (lines 375-382, if the one-shot deps
changed) — `new Editor` + `setEditor` (lines 384-410, if the identity deps
changed) — camera update (lines 413-417, if `[editor, cameraOptions]`
changed, where `editor` is the value the just-committed render closed over).
A `setEditor` call triggers a synchronous re-render in which only the camera
effect sees changed deps.  `failAt id` says whether the `new Editor` call
producing instance `id` throws. -/
def commit (failAt : Nat → Bool) (s : CState) (p : Props) : CommitResult :=
  let destroyEvents :=
    if s.mounted = false ∨ p.identityKey ≠ s.prevB then
      match s.effectBInst with
      | some oldId => [REvent.dispose oldId]
      | none => []
    else []
  let refOpts := if s.mounted = false ∨ p.optsOf ≠ s.prevA then p.optsOf else s.refOpts
  let prevA := if s.mounted = false ∨ p.optsOf ≠ s.prevA then p.optsOf else s.prevA
  if s.mounted = false ∨ p.identityKey ≠ s.prevB then
    let cfg : EditorConfig :=
      { store := p.store, shapeUtils := p.shapeUtils, bindingUtils := p.bindingUtils,
        tools := p.tools, container := p.container, user := p.user,
        initialState := refOpts.initialState, autoFocus := refOpts.autoFocus,
        inferDarkMode := refOpts.inferDarkMode, cameraOptions := refOpts.cameraOptions,
        options := p.options, licenseKey := p.licenseKey }
    if failAt s.nextId then
      CommitResult.threw
        { s with
          mounted := true, prevA := prevA, refOpts := refOpts,
          prevB := p.identityKey, effectBInst := none, nextId := s.nextId + 1 }
        destroyEvents cfg
    else
      let mainCEvents :=
        if s.mounted = false ∨ (s.editor, p.cameraOptions) ≠ s.prevC then
          match s.editor, p.cameraOptions with
          | some e, some cam => [REvent.setCameraOptions e cam]
          | _, _ => []
        else []
      let prevCAfterMain :=
        if s.mounted = false ∨ (s.editor, p.cameraOptions) ≠ s.prevC then
          ((s.editor, p.cameraOptions) : Option Nat × Option Nat)
        else s.prevC
      let followCEvents :=
        if ((some s.nextId : Option Nat), p.cameraOptions) ≠ prevCAfterMain then
          match p.cameraOptions with
          | some cam => [REvent.setCameraOptions s.nextId cam]
          | none => []
        else []
      CommitResult.ok
        { mounted := true, prevA := prevA, prevB := p.identityKey,
          prevC := (some s.nextId, p.cameraOptions), refOpts := refOpts,
          editor := some s.nextId, effectBInst := some s.nextId, nextId := s.nextId + 1 }
        (destroyEvents ++ REvent.construct s.nextId cfg :: (mainCEvents ++ followCEvents))
  else
    let cEvents :=
      if s.mounted = false ∨ (s.editor, p.cameraOptions) ≠ s.prevC then
        match s.editor, p.cameraOptions with
        | some e, some cam => [REvent.setCameraOptions e cam]
        | _, _ => []
      else []
    CommitResult.ok
      { s with
        mounted := true, prevA := prevA, refOpts := refOpts,
        prevC := if s.mounted = false ∨ (s.editor, p.cameraOptions) ≠ s.prevC then
            ((s.editor, p.cameraOptions) : Option Nat × Option Nat)
          else s.prevC }
      cEvents

/-- The always-succeeding constructor: `new Editor(...)` does not throw. -/
def noFail : Nat → Bool := fun _ => false

/-- A commit under the non-throwing constructor, as a total function (with
`noFail` the `threw` branch is unreachable; the projection is harmless). -/
def commitOk (s : CState) (p : Props) : CState × List REvent :=
  match commit noFail s p with
  | CommitResult.ok s' evs => (s', evs)
  | CommitResult.threw s' evs _ => (s', evs)

/-- Commit a sequence of renders, collecting the emitted events. -/
def runOk (s : CState) : List Props → CState × List REvent
  | [] => (s, [])
  | p :: ps =>
    let r₁ := commitOk s p
    let r₂ := runOk r₁.1 ps
    (r₂.1, r₁.2 ++ r₂.2)

/-- Unmounting runs the pending cleanup of the construction effect:
`editor.dispose()` on the last constructed instance (lines 404-406). -/
def unmountEvents (s : CState) : List REvent :=
  match s.effectBInst with
  | some id => [REvent.dispose id]
  | none => []

/-- A full component life: first render with `p₀`, commits for `p₀ :: rest`,
then unmount. -/
def runAll (p₀ : Props) (rest : List Props) : List REvent :=
  let r := runOk (initialState p₀) (p₀ :: rest)
  r.2 ++ unmountEvents r.1

/-- Construction/disposal events, forgetting configurations. -/
inductive LifeEvent where
  | construct (id : Nat)
  | dispose (id : Nat)
deriving DecidableEq

/-- Projection of an event trace to its construct/dispose skeleton. -/
def lifecycle (evs : List REvent) : List LifeEvent :=
  evs.filterMap fun e =>
    match e with
    | REvent.construct id _ => some (LifeEvent.construct id)
    | REvent.dispose id => some (LifeEvent.dispose id)
    | REvent.setCameraOptions _ _ => none

/-- The construction events of a trace, with their configurations. -/
def constructs (evs : List REvent) : List (Nat × EditorConfig) :=
  evs.filterMap fun e =>
    match e with
    | REvent.construct id cfg => some (id, cfg)
    | _ => none

/-- The setCameraOptions calls of a trace. -/
def cameraCalls (evs : List REvent) : List (Nat × Nat) :=
  evs.filterMap fun e =>
    match e with
    | REvent.setCameraOptions id cam => some (id, cam)
    | _ => none

/-- Number of identity-key changes along a render sequence starting from
props `p`. -/
def keyChanges (p : Props) : List Props → Nat
  | [] => 0
  | q :: ps => (if q.identityKey = p.identityKey then 0 else 1) + keyChanges q ps

/-- `construct i, dispose i, construct (i+1), …, construct (i+n)`: the
lifecycle skeleton of a mounted component that sees `n` identity changes. -/
def interleaved (i : Nat) : Nat → List LifeEvent
  | 0 => [LifeEvent.construct i]
  | n + 1 => LifeEvent.construct i :: LifeEvent.dispose i :: interleaved (i + 1) n

/-- State invariant of a mounted `TldrawEditorWithReadyStore` whose last
committed render had props `p`: every effect's saved deps match `p`, the ref
holder is up to date, exactly one live instance exists and it is exposed. -/
def Inv (s : CState) (p : Props) : Prop :=
  s.mounted = true ∧
  s.prevA = p.optsOf ∧
  s.refOpts = p.optsOf ∧
  s.prevB = p.identityKey ∧
  s.prevC = (s.editor, p.cameraOptions) ∧
  s.editor = s.effectBInst ∧
  ∃ id, s.effectBInst = some id ∧ s.nextId = id + 1

/-- Lifecycle skeleton of the remaining life of a mounted component: current
instance `i`, last committed props `p`, remaining renders, then unmount. -/
def lifeTail (i : Nat) (p : Props) : List Props → List LifeEvent
  | [] => [LifeEvent.dispose i]
  | q :: ps =>
    if q.identityKey = p.identityKey then lifeTail i q ps
    else LifeEvent.dispose i :: LifeEvent.construct (i + 1) :: lifeTail (i + 1) q ps

/-- Whether a lifecycle event is a construction. -/
def isConstructE : LifeEvent → Bool
  | LifeEvent.construct _ => true
  | LifeEvent.dispose _ => false

/-- Whether a lifecycle event is a disposal. -/
def isDisposeE : LifeEvent → Bool
  | LifeEvent.dispose _ => true
  | LifeEvent.construct _ => false

/-- Sample render props: every identity token is `1`, no optional prop given
except camera options `5`. -/
def sampleProps : Props :=
  { store := 1, container := 1, shapeUtils := 1, bindingUtils := 1, tools := 1,
    user := 1, options := 1, licenseKey := 1, autoFocus := none,
    inferDarkMode := none, initialState := none, cameraOptions := some 5 }

/-- `sampleProps` with a different store object. -/
def samplePropsStore2 : Props := { sampleProps with store := 2 }

/-- `sampleProps` with camera options removed (undefined). -/
def samplePropsNoCamera : Props := { sampleProps with cameraOptions := none }

/-- The hook state after mounting with `sampleProps`. -/
def sampleMounted : CState := (commitOk (initialState sampleProps) sampleProps).1

/-- `sampleProps` with camera options changed to a new defined object. -/
def samplePropsCam6 : Props := { sampleProps with cameraOptions := some 6 }

/-- A constructor-failure oracle for the witness: instance `1` fails. -/
def failSecond : Nat → Bool := fun id => decide (id = 1)

/-- Shape of one `Layout`/`useOnMount` usage (lines 468-484 and 506-527):
whether the caller passed an `onMount` prop, and whether each of the two hooks
(`editor.store.props.onEditorMount(editor)` and the caller's `onMount`)
returns a teardown function (both may return `undefined`). -/
structure MountConfig where
  hasCallerOnMount : Bool
  storeReturnsTeardown : Bool
  callerReturnsTeardown : Bool
deriving DecidableEq

/-- Observable events of the mount sequencer: entering/leaving the
`editor.run(..., { history: 'ignore' })` scope (lines 513-519), the store
mount hook (line 474), the caller's mount callback (line 475),
`editor.emit('mount')` (line 516), `window.tldrawReady = true` (line 520), and
the two teardown calls (lines 478-479). -/
inductive MEvent where
  | runScopeStart (id : Nat)
  | storeMountHook (id : Nat)
  | callerOnMount (id : Nat)
  | emitMount (id : Nat)
  | runScopeEnd (id : Nat)
  | setTldrawReady
  | teardownStore (id : Nat)
  | teardownCallback (id : Nat)
deriving DecidableEq

/-- The events of one execution of `useOnMount`'s `onMountEvent` on editor
`id` (lines 509-522): inside the history-ignoring `run` scope, the `Layout`
lambda first calls the store mount hook, then the caller's `onMount` if
present, then `editor.emit('mount')`; after the scope closes,
`window.tldrawReady` is set. -/
def mountEventsFor (cfg : MountConfig) (id : Nat) : List MEvent :=
  [MEvent.runScopeStart id, MEvent.storeMountHook id] ++
    (if cfg.hasCallerOnMount then [MEvent.callerOnMount id] else []) ++
    [MEvent.emitMount id, MEvent.runScopeEnd id, MEvent.setTldrawReady]

/-- The events of running the teardown closure registered for editor `id`
(lines 477-480): `teardownStore?.()` first, then `teardownCallback?.()` —
i.e. in the order the two hooks were called during mount. -/
def teardownEventsFor (cfg : MountConfig) (id : Nat) : List MEvent :=
  (if cfg.storeReturnsTeardown then [MEvent.teardownStore id] else []) ++
    (if cfg.hasCallerOnMount && cfg.callerReturnsTeardown then
      [MEvent.teardownCallback id] else [])

/-- Hook state of `useOnMount`'s layout effect (lines 524-526): whether the
effect has ever run, its last-seen deps (`[editor, onMountEvent]` with
`onMountEvent` stable, so effectively `editor`), and which editor's teardown
closure is registered as the pending cleanup. -/
structure MState where
  mounted : Bool
  prevEditor : Option Nat
  activeTeardown : Option Nat
deriving DecidableEq

/-- Initial `useOnMount` hook state: effect never ran, no cleanup pending. -/
def mInit : MState :=
  { mounted := false, prevEditor := none, activeTeardown := none }

/-- One commit of `useOnMount` seeing editor value `ed`: if the deps are
unchanged the effect does not re-run; otherwise the pending cleanup (if any)
runs, then `if (editor) return onMountEvent(editor)` runs the mount sequence
and registers the teardown closure. -/
def mountStep (cfg : MountConfig) (s : MState) (ed : Option Nat) : MState × List MEvent :=
  if s.mounted = true ∧ s.prevEditor = ed then (s, [])
  else
    let destroy :=
      match s.activeTeardown with
      | some oldId => teardownEventsFor cfg oldId
      | none => []
    match ed with
    | some id =>
      ({ mounted := true, prevEditor := ed, activeTeardown := some id },
        destroy ++ mountEventsFor cfg id)
    | none =>
      ({ mounted := true, prevEditor := ed, activeTeardown := none }, destroy)

/-- Commit a sequence of editor values through `useOnMount`. -/
def mountRun (cfg : MountConfig) (s : MState) : List (Option Nat) → MState × List MEvent
  | [] => (s, [])
  | ed :: eds =>
    let r₁ := mountStep cfg s ed
    let r₂ := mountRun cfg r₁.1 eds
    (r₂.1, r₁.2 ++ r₂.2)

/-- A full `useOnMount` life: the given commits, then unmount, which runs the
pending teardown closure. -/
def mountTrace (cfg : MountConfig) (eds : List (Option Nat)) : List MEvent :=
  let r := mountRun cfg mInit eds
  r.2 ++
    (match r.1.activeTeardown with
     | some id => teardownEventsFor cfg id
     | none => [])

/-- A `MountConfig` in which the caller passes `onMount` and both hooks return
teardowns. -/
def cfgAll : MountConfig :=
  { hasCallerOnMount := true, storeReturnsTeardown := true, callerReturnsTeardown := true }

/-- Modelled from the spec: the `Editor` class is not under `src/` (only its
use sites are), so its crash channel is modelled from the spec's data model —
"CrashState: `null | Error`, monotonic per instance (never resets from
non-null to null while that instance lives)" (§3) and "the engine emits
[a crash notification] upon entering an unrecoverable internal state"
(glossary).  `firstCrash` is the instance's crash history: `none` if it never
crashes, or `some (t₀, e)` if it crashes at time `t₀` with error `e`;
`getCrashingError` is the pull accessor read at time `t` through
`useSyncExternalStore` (lines 419-433). -/
def getCrashingError (firstCrash : Option (Nat × Nat)) (t : Nat) : Option Nat :=
  match firstCrash with
  | none => none
  | some (t₀, e) => if t₀ ≤ t then some e else none

/-- What `TldrawEditorWithReadyStore` renders below the inner error boundary
(lines 437-464). -/
inductive ReadyRender where
  | empty
  | crashed (err : Nat)
  | editorSubtree (editorId : Nat)
deriving DecidableEq

/-- The render of `TldrawEditorWithReadyStore`'s body (lines 437-464): with no
editor it renders `null`; with an editor it renders the `Crash` component when
`crashingError` is non-null, else the editor subtree. -/
def renderReadyStore (editor : Option Nat) (crashingError : Option Nat) : ReadyRender :=
  match editor with
  | none => ReadyRender.empty
  | some id =>
    match crashingError with
    | some e => ReadyRender.crashed e
    | none => ReadyRender.editorSubtree id

/-- The `Crash` component (lines 486-488): rendering it throws exactly
`crashingError` to the enclosing error boundary. -/
def crashComponentRender (crashingError : Nat) : Except Nat Unit :=
  Except.error crashingError

/-- The value of `user.userPreferences.get().colorScheme` at a given read. -/
inductive ColorScheme where
  | light
  | dark
  | system
deriving DecidableEq

/-- The two theme classes the dark-mode effect manipulates on the container
(`tl-theme__light` is present initially, line 231). -/
structure ContainerClasses where
  themeLight : Bool
  themeDark : Bool
deriving DecidableEq

/-- Container class state as rendered by the outer `TldrawEditor` component:
`tl-theme__light` set, `tl-theme__dark` not set (line 231). -/
def initialContainerClasses : ContainerClasses :=
  { themeLight := true, themeDark := false }

/-- The body of the dark-mode layout effect (lines 306-311): if the color
scheme reads `dark`, remove `tl-theme__light` and add `tl-theme__dark`;
otherwise leave the classes alone. -/
def darkModeLayoutEffect (scheme : ColorScheme) (c : ContainerClasses) : ContainerClasses :=
  if scheme = ColorScheme.dark then { themeLight := false, themeDark := true } else c

/-- Whether a `StoreWithStatus` is the `error` variant. -/
def isErrorStatus : StoreWithStatus → Bool
  | StoreWithStatus.error _ => true
  | _ => false

/-- Whether a `StoreWithStatus` is one of the three ready variants. -/
def isReadyStatus : StoreWithStatus → Bool
  | StoreWithStatus.notSynced _ => true
  | StoreWithStatus.syncedLocal _ => true
  | StoreWithStatus.syncedRemote _ => true
  | _ => false

/-- Run `TldrawEditorWithLoadingStore` over successive store statuses,
tracking the container classes.  The theme effect (lines 306-311) is a layout
effect with deps `[container, user]`, both constant while the component lives,
so it runs at the first successful commit only — whatever the store status at
that commit is; a render with the `error` status throws (line 320), so no
commit happens and the component is unmounted to the boundary, ending the
run.  `schemeAt t` is the color scheme a read at commit `t` would return. -/
def themeTraceAux (schemeAt : Nat → ColorScheme) :
    Nat → Bool → ContainerClasses → List StoreWithStatus → ContainerClasses
  | _, _, c, [] => c
  | t, mounted, c, st :: rest =>
    if isErrorStatus st then c
    else
      themeTraceAux schemeAt (t + 1) true
        (if mounted then c else darkModeLayoutEffect (schemeAt t) c) rest

/-- Container classes at the end of a `TldrawEditorWithLoadingStore` life that
rendered the given statuses in order. -/
def themeClassesAfter (schemeAt : Nat → ColorScheme)
    (statuses : List StoreWithStatus) : ContainerClasses :=
  themeTraceAux schemeAt 0 false initialContainerClasses statuses

/-- C3.  StoreStatusGate case analysis: `error(err)` re-raises exactly `err`
(and never reaches the ready-store controller); `loading` renders the supplied
`LoadingScreen` if provided and otherwise nothing, constructing no engine (the
result is never a pass-through to the lifecycle controller); each of
`not-synced`, `synced-local`, `synced-remote` passes the underlying store
through to the ready-store lifecycle controller. -/
theorem storeStatusGate_cases (ls : Option Nat) :
    (∀ err : Nat, storeStatusGate (StoreWithStatus.error err) ls = GateResult.throwErr err ∧
      ∀ st : Nat, storeStatusGate (StoreWithStatus.error err) ls ≠ GateResult.passThrough st) ∧
    (storeStatusGate StoreWithStatus.loading ls = GateResult.renderLoading ls ∧
      ∀ st : Nat, storeStatusGate StoreWithStatus.loading ls ≠ GateResult.passThrough st) ∧
    (∀ st : Nat,
      storeStatusGate (StoreWithStatus.notSynced st) ls = GateResult.passThrough st ∧
      storeStatusGate (StoreWithStatus.syncedLocal st) ls = GateResult.passThrough st ∧
      storeStatusGate (StoreWithStatus.syncedRemote st) ls = GateResult.passThrough st) := by
  refine ⟨fun err => ⟨rfl, fun st h => ?_⟩, ⟨rfl, fun st h => ?_⟩, fun st => ⟨rfl, rfl, rfl⟩⟩
  · exact GateResult.noConfusion h
  · exact GateResult.noConfusion h

/-- A commit whose render kept the identity key: the construction effect's
deps are unchanged, so no dispose and no construct happen; only the ref-update
and camera effects may run. -/
theorem commit_key_same (f : Nat → Bool) (s : CState) (q : Props)
    (hm : s.mounted = true) (hb : q.identityKey = s.prevB) (hr : s.refOpts = s.prevA) :
    commit f s q = CommitResult.ok
      { s with
        mounted := true, prevA := q.optsOf, refOpts := q.optsOf,
        prevC := if (s.editor, q.cameraOptions) ≠ s.prevC then
            ((s.editor, q.cameraOptions) : Option Nat × Option Nat)
          else s.prevC }
      (if (s.editor, q.cameraOptions) ≠ s.prevC then
          match s.editor, q.cameraOptions with
          | some e, some cam => [REvent.setCameraOptions e cam]
          | _, _ => []
        else []) := by
  have h1 : (s.mounted = false ∨ q.identityKey ≠ s.prevB) = False := by simp [hm, hb]
  simp only [commit, h1, if_false, hm]
  by_cases ha : q.optsOf = s.prevA
  · simp [ha, hr, hb]
  · simp [ha, hb]

theorem optsOf_autoFocus (p : Props) : p.optsOf.autoFocus = p.autoFocus.getD true := rfl

theorem optsOf_inferDarkMode (p : Props) : p.optsOf.inferDarkMode = p.inferDarkMode := rfl

theorem optsOf_initialState (p : Props) : p.optsOf.initialState = p.initialState := rfl

theorem optsOf_cameraOptions (p : Props) : p.optsOf.cameraOptions = p.cameraOptions := rfl

/-- A commit whose render changed the identity key, with a non-throwing
constructor: the old instance is disposed first (mutation phase), the ref
holder is brought up to date (it ends at the committed render's one-shot
values whether or not the ref effect fired), and then the new instance is
constructed from the holder's snapshot; trailing camera-update calls carry no
construct/dispose. -/
theorem commit_key_changed (f : Nat → Bool) (s : CState) (q : Props) (oldId : Nat)
    (hm : s.mounted = true) (hb : q.identityKey ≠ s.prevB) (hf : f s.nextId = false)
    (hr : s.refOpts = s.prevA) (hinst : s.effectBInst = some oldId) :
    ∃ camEvs : List REvent,
      commit f s q = CommitResult.ok
        { mounted := true, prevA := q.optsOf, prevB := q.identityKey,
          prevC := (some s.nextId, q.cameraOptions), refOpts := q.optsOf,
          editor := some s.nextId, effectBInst := some s.nextId, nextId := s.nextId + 1 }
        (REvent.dispose oldId :: REvent.construct s.nextId (mkEditorConfig q) :: camEvs) ∧
      lifecycle camEvs = [] ∧ constructs camEvs = [] := by
  refine ⟨(if (s.editor, q.cameraOptions) ≠ s.prevC then
      match s.editor, q.cameraOptions with
      | some e, some cam => [REvent.setCameraOptions e cam]
      | _, _ => []
    else []) ++
    (if ((some s.nextId : Option Nat), q.cameraOptions)
        ≠ (if (s.editor, q.cameraOptions) ≠ s.prevC then
            ((s.editor, q.cameraOptions) : Option Nat × Option Nat) else s.prevC) then
      match q.cameraOptions with
      | some cam => [REvent.setCameraOptions s.nextId cam]
      | none => []
    else []), ?_, ?_, ?_⟩
  · simp only [commit, hm, hf]
    by_cases ha : q.optsOf = s.prevA
    · simp [hb, hinst, mkEditorConfig, ← ha, hr, optsOf_autoFocus, optsOf_inferDarkMode,
        optsOf_initialState, optsOf_cameraOptions]
    · simp [ha, hb, hinst, mkEditorConfig, optsOf_autoFocus, optsOf_inferDarkMode,
        optsOf_initialState, optsOf_cameraOptions]
  · rcases s.editor with - | e <;> rcases q.cameraOptions with - | cam <;>
      split_ifs <;> simp [lifecycle]
  · rcases s.editor with - | e <;> rcases q.cameraOptions with - | cam <;>
      split_ifs <;> simp [constructs]

/-- The first commit of a freshly created component state (no effect has run
yet, no instance exists): every effect runs; there is nothing to dispose; the
instance is constructed from the holder, which the ref effect has just set to
the committed render's one-shot values. -/
theorem commit_unmounted (f : Nat → Bool) (s : CState) (p : Props)
    (hm : s.mounted = false) (hf : f s.nextId = false)
    (hinst : s.effectBInst = none) (hed : s.editor = none) :
    ∃ camEvs : List REvent,
      commit f s p = CommitResult.ok
        { mounted := true, prevA := p.optsOf, prevB := p.identityKey,
          prevC := (some s.nextId, p.cameraOptions), refOpts := p.optsOf,
          editor := some s.nextId, effectBInst := some s.nextId, nextId := s.nextId + 1 }
        (REvent.construct s.nextId (mkEditorConfig p) :: camEvs) ∧
      lifecycle camEvs = [] ∧ constructs camEvs = [] := by
  refine ⟨(match p.cameraOptions with
      | some cam => [REvent.setCameraOptions s.nextId cam]
      | none => []), ?_, ?_, ?_⟩
  · simp only [commit, hm, hf]
    simp [hinst, hed, mkEditorConfig, optsOf_autoFocus, optsOf_inferDarkMode,
      optsOf_initialState, optsOf_cameraOptions]
  · rcases p.cameraOptions with - | cam <;> simp [lifecycle]
  · rcases p.cameraOptions with - | cam <;> simp [constructs]

/-- The first commit establishes the mounted-component invariant. -/
theorem Inv_commitOk_initial (p : Props) : Inv (commitOk (initialState p) p).1 p := by
  obtain ⟨camEvs, heq, -, -⟩ :=
    commit_unmounted noFail (initialState p) p rfl rfl rfl rfl
  simp only [commitOk, heq]
  exact ⟨rfl, rfl, rfl, rfl, rfl, rfl, 0, rfl, rfl⟩

/-- Every further commit preserves the mounted-component invariant. -/
theorem Inv_commitOk (s : CState) (p q : Props) (h : Inv s p) : Inv (commitOk s q).1 q := by
  obtain ⟨hm, hA, hR, hB, hC, hE, id, hI, hN⟩ := h
  by_cases hk : q.identityKey = s.prevB
  · have heq := commit_key_same noFail s q hm hk (hR.trans hA.symm)
    simp only [commitOk, heq]
    refine ⟨rfl, rfl, rfl, hk.symm, ?_, hE, id, hI, hN⟩
    by_cases hc : ((s.editor, q.cameraOptions) : Option Nat × Option Nat) = s.prevC
    · rw [if_neg (not_not_intro hc)]
      exact hc.symm
    · rw [if_pos hc]
  · obtain ⟨camEvs, heq, -, -⟩ :=
      commit_key_changed noFail s q id hm hk rfl (hR.trans hA.symm) hI
    simp only [commitOk, heq]
    exact ⟨rfl, rfl, rfl, rfl, rfl, rfl, s.nextId, rfl, rfl⟩

theorem lifecycle_append (a b : List REvent) :
    lifecycle (a ++ b) = lifecycle a ++ lifecycle b :=
  List.filterMap_append a b _

theorem constructs_append (a b : List REvent) :
    constructs (a ++ b) = constructs a ++ constructs b :=
  List.filterMap_append a b _

/-- The construct/dispose skeleton of a mounted component's remaining life is
`lifeTail`: nothing on key-preserving renders, dispose-then-construct on each
key change, and a final dispose at unmount. -/
theorem lifecycle_runOk (ps : List Props) :
    ∀ (s : CState) (p : Props) (i : Nat), Inv s p → s.effectBInst = some i →
      lifecycle ((runOk s ps).2 ++ unmountEvents (runOk s ps).1) = lifeTail i p ps := by
  induction ps with
  | nil =>
    intro s p i h hi
    simp [runOk, unmountEvents, hi, lifecycle, lifeTail]
  | cons q ps ih =>
    intro s p i h hi
    obtain ⟨hm, hA, hR, hB, hC, hE, id, hI, hN⟩ := h
    have hid : id = i := by rw [hi] at hI; exact (Option.some.injEq ..).mp hI.symm
    subst hid
    have hInv : Inv s p := ⟨hm, hA, hR, hB, hC, hE, id, hI, hN⟩
    have h' : Inv (commitOk s q).1 q := Inv_commitOk s p q hInv
    have hrun : runOk s (q :: ps)
        = ((runOk (commitOk s q).1 ps).1,
           (commitOk s q).2 ++ (runOk (commitOk s q).1 ps).2) := rfl
    by_cases hk : q.identityKey = p.identityKey
    · have heq := commit_key_same noFail s q hm (hk.trans hB.symm) (hR.trans hA.symm)
      have hi' : (commitOk s q).1.effectBInst = some id := by
        simp only [commitOk, heq]; exact hI
      have hIH := ih (commitOk s q).1 q id h' hi'
      have hcam : lifecycle (commitOk s q).2 = [] := by
        simp only [commitOk, heq]
        rcases s.editor with - | e <;> rcases q.cameraOptions with - | cam <;>
          split_ifs <;> simp [lifecycle]
      have hstep : lifeTail id p (q :: ps) = lifeTail id q ps := by
        simp [lifeTail, hk]
      rw [hstep, hrun, List.append_assoc, lifecycle_append, hcam, List.nil_append]
      exact hIH
    · obtain ⟨camEvs, heq, hlc, -⟩ :=
        commit_key_changed noFail s q id hm
          (fun hcon => hk (hcon.trans hB)) rfl (hR.trans hA.symm) hI
      have hi' : (commitOk s q).1.effectBInst = some s.nextId := by
        simp only [commitOk, heq]
      have hIH := ih (commitOk s q).1 q s.nextId h' hi'
      have hcam2 : lifecycle (commitOk s q).2
          = [LifeEvent.dispose id, LifeEvent.construct s.nextId] := by
        simp only [commitOk, heq, lifecycle, List.filterMap_cons]
        simpa [lifecycle] using hlc
      have hstep : lifeTail id p (q :: ps) =
          LifeEvent.dispose id :: LifeEvent.construct (id + 1) :: lifeTail (id + 1) q ps := by
        simp [lifeTail, hk]
      rw [hstep, hrun, List.append_assoc, lifecycle_append, hcam2, hIH, hN]
      rfl

theorem construct_cons_lifeTail (ps : List Props) :
    ∀ (i : Nat) (p : Props),
      LifeEvent.construct i :: lifeTail i p ps
        = interleaved i (keyChanges p ps) ++ [LifeEvent.dispose (i + keyChanges p ps)] := by
  induction ps with
  | nil => intro i p; simp [lifeTail, keyChanges, interleaved]
  | cons q ps ih =>
    intro i p
    by_cases hk : q.identityKey = p.identityKey
    · simp [lifeTail, keyChanges, hk, ih]
    · have : keyChanges p (q :: ps) = keyChanges q ps + 1 := by
        simp [keyChanges, hk, Nat.add_comm]
      rw [this]
      simp only [lifeTail, if_neg hk, interleaved]
      rw [ih (i + 1) q]
      simp [Nat.add_assoc, Nat.add_comm 1 (keyChanges q ps)]

theorem countP_interleaved_construct (n : Nat) :
    ∀ i : Nat, (interleaved i n).countP isConstructE = n + 1 := by
  induction n with
  | zero => intro i; simp [interleaved, List.countP_cons, isConstructE]
  | succ n ih =>
    intro i
    simp [interleaved, List.countP_cons, isConstructE, ih (i + 1), Nat.add_comm]

theorem countP_interleaved_dispose (n : Nat) :
    ∀ i : Nat, (interleaved i n).countP isDisposeE = n := by
  induction n with
  | zero => intro i; simp [interleaved, List.countP_cons, isDisposeE]
  | succ n ih =>
    intro i
    simp [interleaved, List.countP_cons, isDisposeE, ih (i + 1), Nat.add_comm]

/-- C2.  Construct/dispose pairing over a full component life (`mount with
props p₀`, further renders `rest`, unmount): with `N` the number of
identity-key changes, the construct/dispose skeleton of the whole event trace
is exactly `construct 0, dispose 0, construct 1, …, construct N, dispose N` —
so construct is called `N + 1` times, dispose `N` times while mounted plus
once at unmount, the `i`-th dispose precedes the `(i+1)`-th construction, and
every construction is paired with exactly one later disposal of the same
instance. -/
theorem construct_dispose_pairing (p₀ : Props) (rest : List Props) :
    lifecycle (runAll p₀ rest)
      = interleaved 0 (keyChanges p₀ rest) ++ [LifeEvent.dispose (keyChanges p₀ rest)] ∧
    (lifecycle (runAll p₀ rest)).countP isConstructE = keyChanges p₀ rest + 1 ∧
    (lifecycle (runAll p₀ rest)).countP isDisposeE = keyChanges p₀ rest + 1 := by
  have hrun : runAll p₀ rest
      = (commitOk (initialState p₀) p₀).2
          ++ ((runOk (commitOk (initialState p₀) p₀).1 rest).2
            ++ unmountEvents (runOk (commitOk (initialState p₀) p₀).1 rest).1) := by
    simp [runAll, runOk, List.append_assoc]
  obtain ⟨camEvs, heq, hlc, -⟩ :=
    commit_unmounted noFail (initialState p₀) p₀ rfl rfl rfl rfl
  have hfirst : lifecycle (commitOk (initialState p₀) p₀).2
      = [LifeEvent.construct 0] := by
    simp only [commitOk, heq]
    simp only [lifecycle, List.filterMap_cons, initialState]
    simpa [lifecycle] using hlc
  have hInv : Inv (commitOk (initialState p₀) p₀).1 p₀ := Inv_commitOk_initial p₀
  have hinst : (commitOk (initialState p₀) p₀).1.effectBInst = some 0 := by
    simp only [commitOk, heq]
    rfl
  have htail := lifecycle_runOk rest (commitOk (initialState p₀) p₀).1 p₀ 0 hInv hinst
  have hmain : lifecycle (runAll p₀ rest)
      = interleaved 0 (keyChanges p₀ rest) ++ [LifeEvent.dispose (keyChanges p₀ rest)] := by
    rw [hrun, lifecycle_append, hfirst, htail]
    have := construct_cons_lifeTail rest 0 p₀
    simpa using this
  refine ⟨hmain, ?_, ?_⟩
  · rw [hmain, List.countP_append, countP_interleaved_construct]
    simp [List.countP_cons, isConstructE]
  · rw [hmain, List.countP_append, countP_interleaved_dispose]
    simp [List.countP_cons, isDisposeE]

/-- A construct event in a trace appears in its `constructs` projection. -/
theorem mem_constructs (id : Nat) (cfg : EditorConfig) (evs : List REvent)
    (h : REvent.construct id cfg ∈ evs) : (id, cfg) ∈ constructs evs := by
  simp only [constructs, List.mem_filterMap]
  exact ⟨REvent.construct id cfg, h, rfl⟩

/-- C1.  Recreation is keyed exactly by the identity tuple: from any mounted
state (last committed props `p`), a render whose identity tuple is unchanged —
in particular one that changes only `autoFocus`, `inferDarkMode` or
`initialState` — commits zero constructions and zero disposals, while a render
that changes the identity tuple (`store`, `container`, `shapeUtils`,
`bindingUtils`, `tools`, `user`, `options` or `licenseKey`) commits exactly one
dispose of the live instance followed by exactly one construction, and that
construction receives the snapshot of the construction options the holder
contains at that moment, i.e. the committed render's own option values. -/
theorem identity_keyed_recreation (s : CState) (p q : Props) (h : Inv s p) :
    (q.identityKey = p.identityKey →
      lifecycle (commitOk s q).2 = [] ∧ constructs (commitOk s q).2 = []) ∧
    (q.identityKey ≠ p.identityKey →
      ∃ oldId, s.effectBInst = some oldId ∧
        lifecycle (commitOk s q).2
          = [LifeEvent.dispose oldId, LifeEvent.construct s.nextId] ∧
        constructs (commitOk s q).2 = [(s.nextId, mkEditorConfig q)]) := by
  obtain ⟨hm, hA, hR, hB, hC, hE, id, hI, hN⟩ := h
  constructor
  · intro hk
    have heq := commit_key_same noFail s q hm (hk.trans hB.symm) (hR.trans hA.symm)
    simp only [commitOk, heq]
    constructor <;>
      · rcases s.editor with - | e <;> rcases q.cameraOptions with - | cam <;>
          split_ifs <;> simp [lifecycle, constructs]
  · intro hk
    obtain ⟨camEvs, heq, hlc, hcs⟩ :=
      commit_key_changed noFail s q id hm
        (fun hcon => hk (hcon.trans hB)) rfl (hR.trans hA.symm) hI
    refine ⟨id, hI, ?_, ?_⟩
    · simp only [commitOk, heq, lifecycle, List.filterMap_cons]
      simpa [lifecycle] using hlc
    · simp only [commitOk, heq, constructs, List.filterMap_cons]
      simpa [constructs] using hcs

theorem identity_keyed_recreation_witness :
    Inv sampleMounted sampleProps ∧
    samplePropsStore2.identityKey ≠ sampleProps.identityKey ∧
    (∃ oldId, sampleMounted.effectBInst = some oldId ∧
      lifecycle (commitOk sampleMounted samplePropsStore2).2
        = [LifeEvent.dispose oldId, LifeEvent.construct sampleMounted.nextId] ∧
      constructs (commitOk sampleMounted samplePropsStore2).2
        = [(sampleMounted.nextId, mkEditorConfig samplePropsStore2)]) :=
  have h : Inv sampleMounted sampleProps := Inv_commitOk_initial sampleProps
  have hk : samplePropsStore2.identityKey ≠ sampleProps.identityKey := by decide
  ⟨h, hk, (identity_keyed_recreation sampleMounted sampleProps samplePropsStore2 h).2 hk⟩

/-- C7 counterexample.  A camera-options change whose new value is undefined
is a change after which no `setCameraOptions` call occurs at all (the camera
effect's guard `editor && cameraOptions` fails), so it is not true that every
`cameraOptions` change applies the new value through `setCameraOptions`: here
the commit emits no events whatsoever. -/
theorem cameraOptions_to_undefined_no_call :
    samplePropsNoCamera.identityKey = sampleProps.identityKey ∧
    samplePropsNoCamera.cameraOptions ≠ sampleProps.cameraOptions ∧
    (commitOk sampleMounted samplePropsNoCamera).2 = [] ∧
    cameraCalls (commitOk sampleMounted samplePropsNoCamera).2 = [] := by decide

/-- C7 (amended).  Camera options are a live option: a render that keeps the
identity tuple never constructs or disposes an instance, whatever it does to
`cameraOptions`; and when such a render changes `cameraOptions` to a defined
value, the commit consists of exactly one `setCameraOptions` call carrying the
new value on the live instance. -/
theorem cameraOptions_live_update (s : CState) (p q : Props) (h : Inv s p)
    (hk : q.identityKey = p.identityKey) :
    lifecycle (commitOk s q).2 = [] ∧
    (∀ cam, q.cameraOptions = some cam → q.cameraOptions ≠ p.cameraOptions →
      ∃ e, s.editor = some e ∧
        (commitOk s q).2 = [REvent.setCameraOptions e cam]) := by
  obtain ⟨hm, hA, hR, hB, hC, hE, id, hI, hN⟩ := h
  have heq := commit_key_same noFail s q hm (hk.trans hB.symm) (hR.trans hA.symm)
  constructor
  · simp only [commitOk, heq]
    rcases s.editor with - | e <;> rcases q.cameraOptions with - | cam <;>
      split_ifs <;> simp [lifecycle]
  · intro cam hcam hne
    have he : s.editor = some id := hE.trans hI
    have hcond : ((s.editor, q.cameraOptions) : Option Nat × Option Nat) ≠ s.prevC := by
      rw [hC]
      intro hcon
      exact hne ((Prod.mk.injEq ..).mp hcon).2
    refine ⟨id, he, ?_⟩
    rw [he, hcam] at hcond
    simp only [commitOk, heq, he, hcam]
    rw [if_pos hcond]

theorem cameraOptions_live_update_witness :
    Inv sampleMounted sampleProps ∧
    samplePropsCam6.identityKey = sampleProps.identityKey ∧
    (lifecycle (commitOk sampleMounted samplePropsCam6).2 = [] ∧
      (∀ cam, samplePropsCam6.cameraOptions = some cam →
        samplePropsCam6.cameraOptions ≠ sampleProps.cameraOptions →
        ∃ e, sampleMounted.editor = some e ∧
          (commitOk sampleMounted samplePropsCam6).2 = [REvent.setCameraOptions e cam])) :=
  have h : Inv sampleMounted sampleProps := Inv_commitOk_initial sampleProps
  have hk : samplePropsCam6.identityKey = sampleProps.identityKey := by decide
  ⟨h, hk, cameraOptions_live_update sampleMounted sampleProps samplePropsCam6 h hk⟩

/-- C8.  Construction failure atomicity: from any mounted state, if the render
changes the identity key and `new Editor` throws for the fresh instance, then
the commit consists of exactly the disposal of the previously exposed
instance (which therefore has already been disposed when the constructor
runs), the exposed-editor value is left untouched (`setEditor` is never called
with any new instance), no cleanup is registered for a partial instance, and
the exception escapes the commit to the enclosing error boundary. -/
theorem construction_failure_atomicity (failAt : Nat → Bool) (s : CState) (p q : Props)
    (h : Inv s p) (hk : q.identityKey ≠ p.identityKey) (hf : failAt s.nextId = true) :
    ∃ oldId s', s.effectBInst = some oldId ∧
      commit failAt s q = CommitResult.threw s' [REvent.dispose oldId] (mkEditorConfig q) ∧
      s'.editor = s.editor ∧ s'.effectBInst = none := by
  obtain ⟨hm, hA, hR, hB, hC, hE, id, hI, hN⟩ := h
  have hb : q.identityKey ≠ s.prevB := fun hcon => hk (hcon.trans hB)
  refine ⟨id,
    { s with
      mounted := true, prevA := q.optsOf, refOpts := q.optsOf,
      prevB := q.identityKey, effectBInst := none, nextId := s.nextId + 1 },
    hI, ?_, rfl, rfl⟩
  simp only [commit, hm, hf]
  by_cases ha : q.optsOf = s.prevA
  · simp [hb, hI, mkEditorConfig, ← ha, hR.trans hA.symm, optsOf_autoFocus,
      optsOf_inferDarkMode, optsOf_initialState, optsOf_cameraOptions]
  · simp [ha, hb, hI, mkEditorConfig, optsOf_autoFocus, optsOf_inferDarkMode,
      optsOf_initialState, optsOf_cameraOptions]

theorem construction_failure_atomicity_witness :
    Inv sampleMounted sampleProps ∧
    samplePropsStore2.identityKey ≠ sampleProps.identityKey ∧
    failSecond sampleMounted.nextId = true ∧
    (∃ oldId s', sampleMounted.effectBInst = some oldId ∧
      commit failSecond sampleMounted samplePropsStore2
        = CommitResult.threw s' [REvent.dispose oldId] (mkEditorConfig samplePropsStore2) ∧
      s'.editor = sampleMounted.editor ∧ s'.effectBInst = none) :=
  have h : Inv sampleMounted sampleProps := Inv_commitOk_initial sampleProps
  have hk : samplePropsStore2.identityKey ≠ sampleProps.identityKey := by decide
  have hf : failSecond sampleMounted.nextId = true := by decide
  ⟨h, hk, hf,
    construction_failure_atomicity failSecond sampleMounted sampleProps samplePropsStore2 h hk hf⟩

/-- C10.  Default of `autoFocus`: any commit — the mounting commit of a fresh
component, or any commit of a mounted component — that constructs an engine
from a render whose `autoFocus` prop is undefined constructs it with
`autoFocus = true` (the destructuring default `autoFocus = true`). -/
theorem autoFocus_defaults_true (s : CState) (q : Props)
    (h : (∃ p₀, s = initialState p₀) ∨ (∃ p, Inv s p))
    (hq : q.autoFocus = none) (id : Nat) (cfg : EditorConfig)
    (hmem : REvent.construct id cfg ∈ (commitOk s q).2) :
    cfg.autoFocus = true := by
  have hcfg : cfg = mkEditorConfig q := by
    rcases h with ⟨p₀, hs⟩ | ⟨p, hInv⟩
    · subst hs
      obtain ⟨camEvs, heq, -, hcs⟩ :=
        commit_unmounted noFail (initialState p₀) q rfl rfl rfl rfl
      rw [commitOk] at hmem
      rw [heq] at hmem
      simp only [List.mem_cons] at hmem
      rcases hmem with hmem | hmem
      · exact ((REvent.construct.injEq ..).mp hmem).2
      · exfalso
        have := mem_constructs id cfg camEvs hmem
        rw [hcs] at this
        exact (List.not_mem_nil _) this
    · obtain ⟨hm, hA, hR, hB, hC, hE, i, hI, hN⟩ := hInv
      by_cases hk : q.identityKey = s.prevB
      · have heq := commit_key_same noFail s q hm hk (hR.trans hA.symm)
        have hcs0 : constructs (commitOk s q).2 = [] := by
          simp only [commitOk, heq]
          rcases s.editor with - | e <;> rcases q.cameraOptions with - | cam <;>
            split_ifs <;> simp [constructs]
        have hfalse := mem_constructs id cfg _ hmem
        rw [hcs0] at hfalse
        exact absurd hfalse (List.not_mem_nil _)
      · obtain ⟨camEvs, heq, -, hcs⟩ :=
          commit_key_changed noFail s q i hm hk rfl (hR.trans hA.symm) hI
        rw [commitOk] at hmem
        rw [heq] at hmem
        simp only [List.mem_cons] at hmem
        rcases hmem with hmem | hmem | hmem
        · exact absurd hmem (by simp)
        · exact ((REvent.construct.injEq ..).mp hmem).2
        · exfalso
          have := mem_constructs id cfg camEvs hmem
          rw [hcs] at this
          exact (List.not_mem_nil _) this
  rw [hcfg, mkEditorConfig, hq]
  rfl

theorem autoFocus_defaults_true_witness :
    (∃ p₀, initialState sampleProps = initialState p₀) ∧
    sampleProps.autoFocus = none ∧
    (mkEditorConfig sampleProps).autoFocus = true :=
  ⟨⟨sampleProps, rfl⟩, rfl,
    autoFocus_defaults_true (initialState sampleProps) sampleProps
      (Or.inl ⟨sampleProps, rfl⟩) rfl 0 (mkEditorConfig sampleProps) (by decide)⟩

theorem mountRun_replicate_noop (cfg : MountConfig) (id : Nat) (n : Nat) :
    ∀ s : MState, s.mounted = true → s.prevEditor = some id →
      mountRun cfg s (List.replicate n (some id)) = (s, []) := by
  induction n with
  | zero => intro s hm he; rfl
  | succ n ih =>
    intro s hm he
    have hstep : mountStep cfg s (some id) = (s, []) := by
      simp [mountStep, hm, he]
    simp [List.replicate, mountRun, hstep, ih s hm he]

theorem mountRun_replicate_mount (cfg : MountConfig) (id n : Nat) :
    ∀ s : MState, (s.mounted = true → s.prevEditor ≠ some id) →
      mountRun cfg s (List.replicate (n + 1) (some id))
        = ({ mounted := true, prevEditor := some id, activeTeardown := some id },
           (match s.activeTeardown with
            | some oldId => teardownEventsFor cfg oldId
            | none => []) ++ mountEventsFor cfg id) := by
  intro s hne
  have hcond : ¬ (s.mounted = true ∧ s.prevEditor = some id) := by
    intro hcon
    exact hne hcon.1 hcon.2
  have hstep : mountStep cfg s (some id)
      = ({ mounted := true, prevEditor := some id, activeTeardown := some id },
         (match s.activeTeardown with
          | some oldId => teardownEventsFor cfg oldId
          | none => []) ++ mountEventsFor cfg id) := by
    simp only [mountStep, if_neg hcond]
  have hrest := mountRun_replicate_noop cfg id n
    { mounted := true, prevEditor := some id, activeTeardown := some id } rfl rfl
  simp [List.replicate, mountRun, hstep, hrest]

/-- C4.  The mount sequence runs exactly once per constructed instance:
a commit whose editor value is unchanged re-runs nothing, and across any
number of commits all showing the same instance the emitted events are
exactly, in order: enter the history-ignoring `run` scope, call the store
mount hook, call the caller's `onMount` (when provided), emit the `mount`
notification (still inside the scope), close the scope, and set the
process-wide `window.tldrawReady` flag — each exactly once. -/
theorem mount_sequence_once (cfg : MountConfig) (id n : Nat) :
    (∀ (s : MState) (ed : Option Nat), s.mounted = true → s.prevEditor = ed →
      mountStep cfg s ed = (s, [])) ∧
    (mountRun cfg mInit (List.replicate (n + 1) (some id))).2
      = [MEvent.runScopeStart id, MEvent.storeMountHook id]
        ++ (if cfg.hasCallerOnMount then [MEvent.callerOnMount id] else [])
        ++ [MEvent.emitMount id, MEvent.runScopeEnd id, MEvent.setTldrawReady] := by
  constructor
  · intro s ed hm he
    simp [mountStep, hm, he]
  · have h := mountRun_replicate_mount cfg id n mInit (fun hm => by simp [mInit] at hm)
    rw [h]
    simp [mInit, mountEventsFor]

theorem mount_sequence_once_witness :
    mountStep cfgAll
        { mounted := true, prevEditor := some 7, activeTeardown := some 7 } (some 7)
      = ({ mounted := true, prevEditor := some 7, activeTeardown := some 7 }, []) ∧
    (mountRun cfgAll mInit (List.replicate 3 (some 7))).2
      = [MEvent.runScopeStart 7, MEvent.storeMountHook 7, MEvent.callerOnMount 7,
         MEvent.emitMount 7, MEvent.runScopeEnd 7, MEvent.setTldrawReady] :=
  ⟨(mount_sequence_once cfgAll 7 2).1
      { mounted := true, prevEditor := some 7, activeTeardown := some 7 } (some 7) rfl rfl,
   by
    have h := (mount_sequence_once cfgAll 7 2).2
    simpa [cfgAll] using h⟩

/-- C6 counterexample.  With both hooks returning teardowns, the teardown
closure invokes the store teardown (registered first) before the caller
teardown (registered second) — i.e. in registration order, not in reverse
registration order. -/
theorem teardown_not_reverse_order :
    mountTrace cfgAll [some 0]
      = mountEventsFor cfgAll 0 ++ [MEvent.teardownStore 0, MEvent.teardownCallback 0] ∧
    mountTrace cfgAll [some 0]
      ≠ mountEventsFor cfgAll 0 ++ [MEvent.teardownCallback 0, MEvent.teardownStore 0] := by
  decide

theorem mountRun_append (cfg : MountConfig) (a b : List (Option Nat)) :
    ∀ s : MState, mountRun cfg s (a ++ b)
      = ((mountRun cfg (mountRun cfg s a).1 b).1,
         (mountRun cfg s a).2 ++ (mountRun cfg (mountRun cfg s a).1 b).2) := by
  induction a with
  | nil => intro s; simp [mountRun]
  | cons ed a ih =>
    intro s
    simp [mountRun, ih, List.append_assoc]

/-- C6 (amended).  Teardown callbacks are collected from both hooks and, on
instance replacement and on unmount, run exactly once per constructed
instance, in the order the hooks registered them (store teardown first, then
caller teardown) — not in reverse registration order. -/
theorem teardown_once_registration_order (cfg : MountConfig) (i j n m : Nat)
    (hij : i ≠ j) :
    mountTrace cfg (List.replicate (n + 1) (some i) ++ List.replicate (m + 1) (some j))
      = mountEventsFor cfg i ++ teardownEventsFor cfg i
        ++ mountEventsFor cfg j ++ teardownEventsFor cfg j ∧
    (cfg.storeReturnsTeardown = true → cfg.hasCallerOnMount = true →
      cfg.callerReturnsTeardown = true →
      teardownEventsFor cfg i = [MEvent.teardownStore i, MEvent.teardownCallback i]) := by
  constructor
  · have ha := mountRun_replicate_mount cfg i n mInit (fun hm => by simp [mInit] at hm)
    have hb := mountRun_replicate_mount cfg j m
      { mounted := true, prevEditor := some i, activeTeardown := some i }
      (fun _ hcon => hij ((Option.some.injEq ..).mp hcon.symm).symm)
    rw [mountTrace, mountRun_append, ha]
    simp only [mInit] at *
    rw [hb]
    simp [List.append_assoc]
  · intro h₁ h₂ h₃
    simp [teardownEventsFor, h₁, h₂, h₃]

theorem teardown_once_registration_order_witness :
    (0 : Nat) ≠ 1 ∧
    (mountTrace cfgAll (List.replicate 1 (some 0) ++ List.replicate 1 (some 1))
      = mountEventsFor cfgAll 0 ++ teardownEventsFor cfgAll 0
        ++ mountEventsFor cfgAll 1 ++ teardownEventsFor cfgAll 1 ∧
    (cfgAll.storeReturnsTeardown = true → cfgAll.hasCallerOnMount = true →
      cfgAll.callerReturnsTeardown = true →
      teardownEventsFor cfgAll 0 = [MEvent.teardownStore 0, MEvent.teardownCallback 0])) :=
  ⟨by decide, teardown_once_registration_order cfgAll 0 1 0 0 (by decide)⟩

/-- C5.  Crash latch: once the crash accessor of an instance is non-null (some
error `e` observed at time `t`), it stays equal to `some e` at every later
time of that instance's life, and every later render of the component with
that instance takes the crash path, which re-raises exactly `e` — whatever
the (identity-preserving) props of those renders are, since the render
decision reads only the editor and the accessor. -/
theorem crash_latch_monotonic (fc : Option (Nat × Nat)) (t t' e : Nat)
    (hcrash : getCrashingError fc t = some e) (hle : t ≤ t') :
    getCrashingError fc t' = some e ∧
    (∀ ed : Nat,
      renderReadyStore (some ed) (getCrashingError fc t') = ReadyRender.crashed e) ∧
    crashComponentRender e = Except.error e := by
  have h' : getCrashingError fc t' = some e := by
    rcases fc with - | ⟨t₀, e₀⟩
    · simp [getCrashingError] at hcrash
    · simp only [getCrashingError] at hcrash ⊢
      split_ifs at hcrash with h₀
      rw [if_pos (h₀.trans hle)]
      exact hcrash
  refine ⟨h', fun ed => ?_, rfl⟩
  rw [h']
  rfl

theorem crash_latch_monotonic_witness :
    getCrashingError (some (1, 42)) 1 = some 42 ∧ 1 ≤ 3 ∧
    (getCrashingError (some (1, 42)) 3 = some 42 ∧
      (∀ ed : Nat, renderReadyStore (some ed) (getCrashingError (some (1, 42)) 3)
        = ReadyRender.crashed 42) ∧
      crashComponentRender 42 = Except.error 42) :=
  ⟨by decide, by decide, crash_latch_monotonic (some (1, 42)) 1 3 42 (by decide) (by decide)⟩

/-- C9 counterexample.  With a dark color scheme and a store that stays
`loading` for its entire life, the dark theme class is applied even though a
ready state is never reached: the effect runs at the first commit regardless
of store status, not on first reaching a ready state. -/
theorem theme_applied_while_loading :
    themeClassesAfter (fun _ => ColorScheme.dark) [StoreWithStatus.loading]
      = { themeLight := false, themeDark := true } ∧
    ([StoreWithStatus.loading].any isReadyStatus) = false := by
  decide

theorem themeTraceAux_mounted (schemeAt : Nat → ColorScheme)
    (rest : List StoreWithStatus) :
    ∀ (t : Nat) (c : ContainerClasses), themeTraceAux schemeAt t true c rest = c := by
  induction rest with
  | nil => intro t c; rfl
  | cons st rest ih =>
    intro t c
    by_cases he : isErrorStatus st = true
    · simp [themeTraceAux, he]
    · simp [themeTraceAux, he, ih]

/-- C9 (amended).  The theme side effect happens at the component's first
successful commit — whatever the store status then is, including `loading` —
as a single point-in-time read of the color-scheme preference: the final
classes are exactly the effect applied to the initial classes at the scheme
read at time `0`, independent of every later status, and independent of every
later preference value (the effect never re-runs at this layer). -/
theorem theme_point_in_time (schemeAt : Nat → ColorScheme) (s₀ : StoreWithStatus)
    (rest : List StoreWithStatus) (h : isErrorStatus s₀ = false) :
    themeClassesAfter schemeAt (s₀ :: rest)
      = darkModeLayoutEffect (schemeAt 0) initialContainerClasses ∧
    (∀ schemeAt' : Nat → ColorScheme, schemeAt' 0 = schemeAt 0 →
      themeClassesAfter schemeAt' (s₀ :: rest)
        = themeClassesAfter schemeAt (s₀ :: rest)) := by
  have hmain : ∀ f : Nat → ColorScheme, themeClassesAfter f (s₀ :: rest)
      = darkModeLayoutEffect (f 0) initialContainerClasses := by
    intro f
    simp only [themeClassesAfter, themeTraceAux, h]
    simp [themeTraceAux_mounted]
  refine ⟨hmain schemeAt, fun schemeAt' h0 => ?_⟩
  rw [hmain schemeAt', hmain schemeAt, h0]

theorem theme_point_in_time_witness :
    isErrorStatus StoreWithStatus.loading = false ∧
    (themeClassesAfter (fun _ => ColorScheme.dark)
        [StoreWithStatus.loading, StoreWithStatus.syncedLocal 1]
      = darkModeLayoutEffect ColorScheme.dark initialContainerClasses ∧
    (∀ schemeAt' : Nat → ColorScheme,
      schemeAt' 0 = ColorScheme.dark →
      themeClassesAfter schemeAt' [StoreWithStatus.loading, StoreWithStatus.syncedLocal 1]
        = themeClassesAfter (fun _ => ColorScheme.dark)
            [StoreWithStatus.loading, StoreWithStatus.syncedLocal 1])) :=
  ⟨rfl, theme_point_in_time (fun _ => ColorScheme.dark) StoreWithStatus.loading
    [StoreWithStatus.syncedLocal 1] rfl⟩

end TldrawSpec
